import Mathlib

/-!
Verification development for the `assistant-client-js` SDK core.

The TypeScript sources are shallowly embedded: pure functions become Lean
functions, stateful repository/service methods become explicit state-passing
functions, fallible calls return `Except String`, JS numbers are modelled by
`ℝ`, timestamps by `Nat`, and external collaborators (database ordering,
OpenAI embedding/completion calls, keyword full-text search) are supplied as
oracle inputs describing their outcomes.
-/

namespace AssistantClient

/-- `type` field of a message row (`'user' | 'assistant' | 'system'`). -/
inductive MsgType where
  | user
  | assistant
  | system
deriving DecidableEq, Repr

/-- `type` field of a knowledge item
(`'folder' | 'document' | 'file' | 'url' | 'url_directory'`). -/
inductive KnowledgeType where
  | folder
  | document
  | file
  | url
  | url_directory
deriving DecidableEq, Repr

/-- `SearchResult` from `src/types/index.ts` (fields not used by any claim —
`description`, `metadata` — are kept where a claim's code path touches them). -/
structure SearchResult where
  uuid : String
  title : String
  description : Option String
  content : Option String
  type : KnowledgeType
  score : ℝ

/-! ## KnowledgeService.search — hybrid mode (part_008, lines 43–73) -/

/-- The `seen`-set deduplication loop of `KnowledgeService.search` (hybrid
branch): walk the concatenated list, keep a result only when its `uuid` has
not been seen yet. `seen` is the set of already-kept uuids. -/
def dedupeByUuid (seen : List String) : List SearchResult → List SearchResult
  | [] => []
  | r :: rest =>
    if r.uuid ∈ seen then dedupeByUuid seen rest
    else r :: dedupeByUuid (r.uuid :: seen) rest

/-- `Math.ceil(limit / 2)` on natural numbers. -/
def ceilHalf (limit : Nat) : Nat := (limit + 1) / 2

/-- Hybrid branch of `KnowledgeService.search`: the semantic and keyword
sub-searches are external calls whose outcomes are supplied as functions of
the sub-limit they are invoked with; the merge is
concatenate (semantic first) → deduplicate by uuid → truncate to `limit`. -/
def hybridSearch (semantic keyword : Nat → List SearchResult) (limit : Nat) :
    List SearchResult :=
  let semanticResults := semantic (ceilHalf limit)
  let keywordResults := keyword (ceilHalf limit)
  (dedupeByUuid [] (semanticResults ++ keywordResults)).take limit

theorem mem_of_mem_dedupe {seen : List String} {l : List SearchResult}
    {x : SearchResult} (h : x ∈ dedupeByUuid seen l) :
    x ∈ l ∧ x.uuid ∉ seen := by
  induction l generalizing seen with
  | nil => simp [dedupeByUuid] at h
  | cons r rest ih =>
    simp only [dedupeByUuid] at h
    by_cases hr : r.uuid ∈ seen
    · rw [if_pos hr] at h
      rcases ih h with ⟨h1, h2⟩
      exact ⟨List.mem_cons_of_mem _ h1, h2⟩
    · rw [if_neg hr] at h
      rcases List.mem_cons.mp h with h | h
      · exact ⟨h ▸ List.mem_cons_self _ _, h ▸ hr⟩
      · rcases ih h with ⟨h1, h2⟩
        refine ⟨List.mem_cons_of_mem _ h1, fun hc => h2 ?_⟩
        exact List.mem_cons_of_mem _ hc

theorem dedupe_uuid_nodup (seen : List String) (l : List SearchResult) :
    ((dedupeByUuid seen l).map (·.uuid)).Nodup := by
  induction l generalizing seen with
  | nil => simp [dedupeByUuid]
  | cons r rest ih =>
    simp only [dedupeByUuid]
    by_cases hr : r.uuid ∈ seen
    · rw [if_pos hr]; exact ih seen
    · rw [if_neg hr]
      simp only [List.map_cons, List.nodup_cons]
      refine ⟨fun hc => ?_, ih (r.uuid :: seen)⟩
      rcases List.mem_map.mp hc with ⟨y, hy, hyu⟩
      exact (mem_of_mem_dedupe hy).2 (by simp [hyu])

/-- First-occurrence-kept: an element surviving deduplication whose uuid
already occurs in the first (semantic) block is itself from that block. -/
theorem dedupe_first_block {seen : List String} {l₁ l₂ : List SearchResult}
    {x : SearchResult} (h : x ∈ dedupeByUuid seen (l₁ ++ l₂))
    (hu : x.uuid ∈ l₁.map (·.uuid)) : x ∈ l₁ := by
  induction l₁ generalizing seen with
  | nil => simp at hu
  | cons r rest ih =>
    simp only [List.cons_append, dedupeByUuid] at h
    simp only [List.map_cons, List.mem_cons] at hu
    by_cases hr : r.uuid ∈ seen
    · rw [if_pos hr] at h
      rcases hu with hu | hu
      · exact absurd (hu ▸ hr) (mem_of_mem_dedupe h).2
      · exact List.mem_cons_of_mem _ (ih h hu)
    · rw [if_neg hr] at h
      rcases List.mem_cons.mp h with h | h
      · exact h ▸ List.mem_cons_self _ _
      · have hne : x.uuid ∉ r.uuid :: seen := (mem_of_mem_dedupe h).2
        rcases hu with hu | hu
        · exact absurd (hu ▸ List.mem_cons_self _ _) hne
        · exact List.mem_cons_of_mem _ (ih h hu)

/-- C4: hybrid search requests `ceil(limit/2)` results from each sub-search
(definitionally, `hybridSearch` invokes both oracles at `ceilHalf limit`,
which equals `⌈limit/2⌉`), concatenates semantic results first, deduplicates
by item identifier keeping the first (semantic) occurrence — each identifier
appears at most once and an item whose identifier occurs among the semantic
results is itself a semantic result, hence carries its semantic score — and
truncates so the result count never exceeds `limit`. -/
theorem C4_hybrid_search_merge (semantic keyword : Nat → List SearchResult)
    (limit : Nat) :
    ceilHalf limit = (limit + 1) / 2 ∧
    (hybridSearch semantic keyword limit).length ≤ limit ∧
    ((hybridSearch semantic keyword limit).map (·.uuid)).Nodup ∧
    (∀ x ∈ hybridSearch semantic keyword limit,
      x.uuid ∈ (semantic (ceilHalf limit)).map (·.uuid) →
        x ∈ semantic (ceilHalf limit)) := by
  refine ⟨rfl, ?_, ?_, ?_⟩
  · exact (List.length_take _ _).trans_le (min_le_left _ _)
  · exact List.Nodup.sublist ((List.take_sublist _ _).map _)
      (dedupe_uuid_nodup [] _)
  · intro x hx hu
    exact dedupe_first_block (List.mem_of_mem_take hx) hu

/-- Concrete instantiation of `C4_hybrid_search_merge`: two semantic hits
(`a`, `b`), two keyword hits (`a` again, `c`), limit 3; the merged result
keeps `a`'s semantic occurrence. -/
theorem C4_hybrid_search_merge_witness :
    (hybridSearch
        (fun _ => [⟨"a", "A", none, none, .document, 0.9⟩,
                   ⟨"b", "B", none, none, .document, 0.8⟩])
        (fun _ => [⟨"a", "A", none, none, .document, 0.8⟩,
                   ⟨"c", "C", none, none, .document, 0.8⟩]) 3).length ≤ 3 ∧
    (⟨"a", "A", none, none, .document, 0.9⟩ : SearchResult) ∈
      [(⟨"a", "A", none, none, .document, 0.9⟩ : SearchResult),
       ⟨"b", "B", none, none, .document, 0.8⟩] := by
  have h := C4_hybrid_search_merge
    (fun _ => [⟨"a", "A", none, none, .document, 0.9⟩,
               ⟨"b", "B", none, none, .document, 0.8⟩])
    (fun _ => [⟨"a", "A", none, none, .document, 0.8⟩,
               ⟨"c", "C", none, none, .document, 0.8⟩]) 3
  refine ⟨h.2.1, ?_⟩
  refine h.2.2.2 _ ?_ ?_
  · show (⟨"a", "A", none, none, .document, 0.9⟩ : SearchResult) ∈
      [(⟨"a", "A", none, none, .document, 0.9⟩ : SearchResult),
       ⟨"b", "B", none, none, .document, 0.8⟩,
       ⟨"c", "C", none, none, .document, 0.8⟩]
    exact List.mem_cons_self _ _
  · simp [ceilHalf]

/-! ## KnowledgeRepository.cosineSimilarity (part_007, lines 171–180)

JS numbers are modelled by `ℝ`. The source guard
`!Array.isArray(a) || !Array.isArray(b) || a.length !== b.length` reduces in
the typed embedding to the length test (both arguments are arrays by type). -/

open Classical in
/-- `KnowledgeRepository.cosineSimilarity`: zero on length mismatch or zero
magnitude, otherwise `dot / (|a| * |b|)`. -/
noncomputable def cosineSimilarity (a b : List ℝ) : ℝ :=
  if a.length ≠ b.length then 0
  else
    let dotProduct := (List.zipWith (· * ·) a b).sum
    let magnitudeA := Real.sqrt ((a.map fun v => v * v).sum)
    let magnitudeB := Real.sqrt ((b.map fun v => v * v).sum)
    if magnitudeA = 0 ∨ magnitudeB = 0 then 0
    else dotProduct / (magnitudeA * magnitudeB)

theorem sum_sq_nonneg (l : List ℝ) : 0 ≤ (l.map fun v => v * v).sum :=
  List.sum_nonneg (by
    intro x hx
    rcases List.mem_map.mp hx with ⟨v, _, rfl⟩
    exact mul_self_nonneg v)

/-- Cauchy–Schwarz for list dot products (the truncating `zipWith` form). -/
theorem list_cauchy_schwarz (a b : List ℝ) :
    ((List.zipWith (· * ·) a b).sum) ^ 2 ≤
      ((a.map fun v => v * v).sum) * ((b.map fun v => v * v).sum) := by
  induction a generalizing b with
  | nil => simp
  | cons x xs ih =>
    cases b with
    | nil => simp
    | cons y ys =>
      simp only [List.zipWith_cons_cons, List.map_cons, List.sum_cons]
      have hd := ih ys
      have hA := sum_sq_nonneg xs
      have hB := sum_sq_nonneg ys
      set d := (List.zipWith (· * ·) xs ys).sum with hd_def
      set A := (xs.map fun v => v * v).sum with hA_def
      set B := (ys.map fun v => v * v).sum with hB_def
      rcases eq_or_lt_of_le hB with hB0 | hBpos
      · have hd0 : d = 0 := by
          have h2 : d ^ 2 ≤ 0 := by nlinarith
          nlinarith [sq_nonneg d]
        rw [hd0, ← hB0]
        nlinarith [mul_nonneg hA (mul_self_nonneg y)]
      · nlinarith [sq_nonneg (x * B - y * d),
          mul_nonneg (add_nonneg (mul_self_nonneg y) hB)
            (sub_nonneg.mpr hd)]

theorem zipWith_mul_self (a : List ℝ) :
    List.zipWith (· * ·) a a = a.map fun v => v * v := by
  induction a with
  | nil => rfl
  | cons x xs ih => simp [ih]

theorem zipWith_mul_comm (a b : List ℝ) :
    List.zipWith (· * ·) a b = List.zipWith (· * ·) b a := by
  induction a generalizing b with
  | nil => cases b <;> rfl
  | cons x xs ih =>
    cases b with
    | nil => rfl
    | cons y ys => simp [ih, mul_comm]

/-- C5: cosine similarity is symmetric; `sim(a,a) = 1` for non-zero `a`;
the value lies in `[-1, 1]` for equal-length vectors; and it is `0`
whenever the lengths differ or either vector is empty. -/
theorem C5_cosine_similarity_props (a b : List ℝ) :
    cosineSimilarity a b = cosineSimilarity b a ∧
    ((∃ x ∈ a, x ≠ 0) → cosineSimilarity a a = 1) ∧
    (a.length = b.length →
      -1 ≤ cosineSimilarity a b ∧ cosineSimilarity a b ≤ 1) ∧
    (a.length ≠ b.length ∨ a = [] ∨ b = [] → cosineSimilarity a b = 0) := by
  refine ⟨?_, ?_, ?_, ?_⟩
  · by_cases hl : a.length = b.length
    · have h1 : ¬a.length ≠ b.length := by simp [hl]
      have h2 : ¬b.length ≠ a.length := by simp [hl]
      simp only [cosineSimilarity]
      rw [if_neg h1, if_neg h2, zipWith_mul_comm]
      by_cases hz : Real.sqrt ((a.map fun v => v * v).sum) = 0 ∨
          Real.sqrt ((b.map fun v => v * v).sum) = 0
      · rw [if_pos hz, if_pos hz.symm]
      · rw [if_neg hz, if_neg fun h => hz h.symm, mul_comm]
    · simp only [cosineSimilarity]
      rw [if_pos hl, if_pos (Ne.symm hl)]
  · rintro ⟨x, hx, hx0⟩
    have hS : 0 < (a.map fun v => v * v).sum := by
      have hmem : x * x ∈ a.map fun v => v * v := List.mem_map_of_mem _ hx
      have hle : x * x ≤ (a.map fun v => v * v).sum :=
        List.single_le_sum (by
          intro y hy
          rcases List.mem_map.mp hy with ⟨v, _, rfl⟩
          exact mul_self_nonneg v) _ hmem
      exact lt_of_lt_of_le (mul_self_pos.mpr hx0) hle
    have hsq : Real.sqrt ((a.map fun v => v * v).sum) ≠ 0 :=
      Real.sqrt_ne_zero'.mpr hS
    simp only [cosineSimilarity, ne_eq, not_true_eq_false, if_false,
      if_neg (by simp : ¬a.length ≠ a.length), zipWith_mul_self,
      if_neg (by simp [hsq] : ¬(Real.sqrt ((a.map fun v => v * v).sum) = 0 ∨
        Real.sqrt ((a.map fun v => v * v).sum) = 0))]
    rw [Real.mul_self_sqrt (le_of_lt hS)]
    exact div_self (ne_of_gt hS)
  · intro hl
    simp only [cosineSimilarity, if_neg (by simp [hl] : ¬a.length ≠ b.length)]
    set SA := (a.map fun v => v * v).sum with hSA
    set SB := (b.map fun v => v * v).sum with hSB
    by_cases hz : Real.sqrt SA = 0 ∨ Real.sqrt SB = 0
    · rw [if_pos hz]; norm_num
    · rw [if_neg hz]
      push_neg at hz
      have hApos : 0 < Real.sqrt SA :=
        lt_of_le_of_ne (Real.sqrt_nonneg _) (Ne.symm hz.1)
      have hBpos : 0 < Real.sqrt SB :=
        lt_of_le_of_ne (Real.sqrt_nonneg _) (Ne.symm hz.2)
      have hM : 0 < Real.sqrt SA * Real.sqrt SB := mul_pos hApos hBpos
      have hcs : ((List.zipWith (· * ·) a b).sum) ^ 2 ≤
          (Real.sqrt SA * Real.sqrt SB) ^ 2 := by
        have h1 : SA * SB = (Real.sqrt SA * Real.sqrt SB) ^ 2 := by
          rw [mul_pow, Real.sq_sqrt (sum_sq_nonneg a),
            Real.sq_sqrt (sum_sq_nonneg b)]
        exact (list_cauchy_schwarz a b).trans_eq h1
      set dt := (List.zipWith (· * ·) a b).sum with hdt
      have h1 : dt ≤ Real.sqrt SA * Real.sqrt SB := by nlinarith
      have h2 : -(Real.sqrt SA * Real.sqrt SB) ≤ dt := by nlinarith
      constructor
      · rw [le_div_iff₀ hM]; linarith
      · exact (div_le_one hM).mpr h1
  · intro h
    have hz : a.length ≠ b.length ∨ (a = [] ∧ b = []) := by
      rcases h with hl | rfl | rfl
      · exact Or.inl hl
      · cases b with
        | nil => exact Or.inr ⟨rfl, rfl⟩
        | cons y ys => exact Or.inl (by simp)
      · cases a with
        | nil => exact Or.inr ⟨rfl, rfl⟩
        | cons x xs => exact Or.inl (by simp)
    rcases hz with hl | ⟨rfl, rfl⟩
    · simp only [cosineSimilarity]
      rw [if_pos hl]
    · simp [cosineSimilarity]

/-- Concrete instantiation of `C5_cosine_similarity_props`:
`sim([1],[1]) = 1`, `sim([1],[0]) ∈ [-1,1]`, `sim([1],[1,0]) = 0`. -/
theorem C5_cosine_similarity_props_witness :
    cosineSimilarity [1] [1] = 1 ∧
    (-1 ≤ cosineSimilarity [1] [0] ∧ cosineSimilarity [1] [0] ≤ 1) ∧
    cosineSimilarity [1] [1, 0] = 0 :=
  ⟨(C5_cosine_similarity_props [1] [1]).2.1 ⟨1, by simp, one_ne_zero⟩,
   (C5_cosine_similarity_props [1] [0]).2.2.1 rfl,
   (C5_cosine_similarity_props [1] [1, 0]).2.2.2 (Or.inl (by simp))⟩

/-! ## KnowledgeRepository.semanticSearch (part_007, first copy, lines 100–135)

A stored `embedding` column value is a JS value: `null`, a numeric array, a
string (whose `JSON.parse` either yields an array, yields a non-array, or
throws), or some other truthy non-array value. `JSON.parse` is a platform
collaborator; its outcome on a given string is part of the stored value's
description. -/

/-- Outcome classification of a stored embedding *string*. -/
inductive JsonText where
  | empty
  | arrLit (v : List ℝ)
  | nonArrLit
  | invalid

/-- A stored `embedding` column value. -/
inductive EmbVal where
  | null
  | arr (v : List ℝ)
  | str (s : JsonText)
  | other

/-- JS truthiness of a stored embedding (`if (item.embedding)`):
`null` and the empty string are falsy. -/
def EmbVal.truthy : EmbVal → Bool
  | .null => false
  | .str .empty => false
  | _ => true

/-- `NOT embedding IS NULL` filter used by the fetch query. -/
def EmbVal.notNull : EmbVal → Bool
  | .null => false
  | _ => true

/-- A `knowledge_items` row as seen by `semanticSearch`'s select. -/
structure StoredKnowledgeItem where
  uuid : String
  title : String
  description : Option String
  content : Option String
  type : KnowledgeType
  embedding : EmbVal

/-- Projection of a row plus its similarity score into a `SearchResult`. -/
def toResult (it : StoredKnowledgeItem) (score : ℝ) : SearchResult :=
  ⟨it.uuid, it.title, it.description, it.content, it.type, score⟩

open Classical in
/-- The scoring loop of `KnowledgeRepository.semanticSearch`: skip falsy
embeddings, `JSON.parse` strings (throwing on invalid JSON), skip non-array
values, score arrays with `cosineSimilarity`, and keep scores `≥ threshold`. -/
noncomputable def collectScored (q : List ℝ) (threshold : ℝ) :
    List StoredKnowledgeItem → Except String (List SearchResult)
  | [] => .ok []
  | it :: rest =>
    match it.embedding with
    | .str .invalid => .error "Unexpected token in JSON"
    | .str (.arrLit v) =>
      if threshold ≤ cosineSimilarity q v then
        (collectScored q threshold rest).map
          (toResult it (cosineSimilarity q v) :: ·)
      else collectScored q threshold rest
    | .arr v =>
      if threshold ≤ cosineSimilarity q v then
        (collectScored q threshold rest).map
          (toResult it (cosineSimilarity q v) :: ·)
      else collectScored q threshold rest
    | _ => collectScored q threshold rest

open Classical in
/-- Insertion step of the final `sort((a, b) => b.score - a.score)`
(descending by score, stable). -/
noncomputable def insertByScoreDesc (r : SearchResult) :
    List SearchResult → List SearchResult
  | [] => [r]
  | x :: xs =>
    if r.score < x.score then x :: insertByScoreDesc r xs else r :: x :: xs

noncomputable def sortByScoreDesc : List SearchResult → List SearchResult
  | [] => []
  | x :: xs => insertByScoreDesc x (sortByScoreDesc xs)

/-- `KnowledgeRepository.semanticSearch` (in-memory variant): fetch the first
`limit * 3` rows with non-null embedding, score them, sort descending by
score, truncate to `limit`. A `JSON.parse` failure inside the loop escapes
the method as an error. -/
noncomputable def repoSemanticSearch (q : List ℝ)
    (table : List StoredKnowledgeItem) (limit : Nat) (threshold : ℝ) :
    Except String (List SearchResult) :=
  let fetched := (table.filter fun it => it.embedding.notNull).take (limit * 3)
  (collectScored q threshold fetched).map
    fun rs => (sortByScoreDesc rs).take limit

/-- `KnowledgeService.semanticSearch` (part_008, lines 88–96): the embedding
collaborator outcome is the first argument; any failure inside the `try`
(embedding call or repository search) degrades to `[]`. -/
noncomputable def serviceSemanticSearch (embedResult : Except String (List ℝ))
    (table : List StoredKnowledgeItem) (limit : Nat) (threshold : ℝ) :
    List SearchResult :=
  match embedResult with
  | .error _ => []
  | .ok q =>
    match repoSemanticSearch q table limit threshold with
    | .error _ => []
    | .ok rs => rs

/-- C6: if the embedding collaborator call fails during a semantic search,
the service-level semantic search returns the empty result set instead of
propagating the failure. -/
theorem C6_embedding_failure_degrades (e : String)
    (table : List StoredKnowledgeItem) (limit : Nat) (threshold : ℝ) :
    serviceSemanticSearch (.error e) table limit threshold = [] := rfl

theorem mem_of_mem_insertDesc {x r : SearchResult} {l : List SearchResult}
    (h : x ∈ insertByScoreDesc r l) : x = r ∨ x ∈ l := by
  induction l with
  | nil => simpa [insertByScoreDesc] using h
  | cons y ys ih =>
    simp only [insertByScoreDesc] at h
    by_cases hc : r.score < y.score
    · rw [if_pos hc] at h
      rcases List.mem_cons.mp h with h | h
      · exact Or.inr (h ▸ List.mem_cons_self _ _)
      · rcases ih h with h | h
        · exact Or.inl h
        · exact Or.inr (List.mem_cons_of_mem _ h)
    · rw [if_neg hc] at h
      rcases List.mem_cons.mp h with h | h
      · exact Or.inl h
      · exact Or.inr h

theorem mem_of_mem_sortDesc {x : SearchResult} {l : List SearchResult}
    (h : x ∈ sortByScoreDesc l) : x ∈ l := by
  induction l with
  | nil => simp [sortByScoreDesc] at h
  | cons y ys ih =>
    simp only [sortByScoreDesc] at h
    rcases mem_of_mem_insertDesc h with h | h
    · exact h ▸ List.mem_cons_self _ _
    · exact List.mem_cons_of_mem _ (ih h)

/-- When no fetched row's embedding is an invalid JSON string, the scoring
loop succeeds, and every produced result comes from a row whose embedding is
(or parses to) a numeric array clearing the threshold. -/
theorem collectScored_ok (q : List ℝ) (θ : ℝ) (l : List StoredKnowledgeItem)
    (hno : ∀ it ∈ l, it.embedding ≠ .str .invalid) :
    ∃ rs, collectScored q θ l = .ok rs ∧
      ∀ r ∈ rs, ∃ it ∈ l, ∃ v : List ℝ,
        (it.embedding = .arr v ∨ it.embedding = .str (.arrLit v)) ∧
        r = toResult it (cosineSimilarity q v) ∧
        θ ≤ cosineSimilarity q v := by
  induction l with
  | nil => exact ⟨[], rfl, by simp⟩
  | cons it rest ih =>
    rcases ih (fun x hx => hno x (List.mem_cons_of_mem _ hx)) with
      ⟨rs, hrs, hmem⟩
    have hit := hno it (List.mem_cons_self _ _)
    cases hemb : it.embedding with
    | null =>
      exact ⟨rs, by simp only [collectScored, hemb]; exact hrs,
        fun r hr => (hmem r hr).elim fun x hx =>
          ⟨x, List.mem_cons_of_mem _ hx.1, hx.2⟩⟩
    | other =>
      exact ⟨rs, by simp only [collectScored, hemb]; exact hrs,
        fun r hr => (hmem r hr).elim fun x hx =>
          ⟨x, List.mem_cons_of_mem _ hx.1, hx.2⟩⟩
    | arr v =>
      by_cases hsc : θ ≤ cosineSimilarity q v
      · refine ⟨toResult it (cosineSimilarity q v) :: rs, ?_, ?_⟩
        · simp only [collectScored, hemb]
          rw [if_pos hsc, hrs]
          rfl
        · intro r hr
          rcases List.mem_cons.mp hr with hr | hr
          · exact ⟨it, List.mem_cons_self _ _, v, Or.inl hemb, hr, hsc⟩
          · rcases hmem r hr with ⟨x, hx1, hx2⟩
            exact ⟨x, List.mem_cons_of_mem _ hx1, hx2⟩
      · refine ⟨rs, ?_, ?_⟩
        · simp only [collectScored, hemb]
          rw [if_neg hsc]
          exact hrs
        · intro r hr
          rcases hmem r hr with ⟨x, hx1, hx2⟩
          exact ⟨x, List.mem_cons_of_mem _ hx1, hx2⟩
    | str s =>
      cases s with
      | empty =>
        exact ⟨rs, by simp only [collectScored, hemb]; exact hrs,
          fun r hr => (hmem r hr).elim fun x hx =>
            ⟨x, List.mem_cons_of_mem _ hx.1, hx.2⟩⟩
      | nonArrLit =>
        exact ⟨rs, by simp only [collectScored, hemb]; exact hrs,
          fun r hr => (hmem r hr).elim fun x hx =>
            ⟨x, List.mem_cons_of_mem _ hx.1, hx.2⟩⟩
      | invalid => exact absurd hemb hit
      | arrLit v =>
        by_cases hsc : θ ≤ cosineSimilarity q v
        · refine ⟨toResult it (cosineSimilarity q v) :: rs, ?_, ?_⟩
          · simp only [collectScored, hemb]
            rw [if_pos hsc, hrs]
            rfl
          · intro r hr
            rcases List.mem_cons.mp hr with hr | hr
            · exact ⟨it, List.mem_cons_self _ _, v, Or.inr hemb, hr, hsc⟩
            · rcases hmem r hr with ⟨x, hx1, hx2⟩
              exact ⟨x, List.mem_cons_of_mem _ hx1, hx2⟩
        · refine ⟨rs, ?_, ?_⟩
          · simp only [collectScored, hemb]
            rw [if_neg hsc]
            exact hrs
          · intro r hr
            rcases hmem r hr with ⟨x, hx1, hx2⟩
            exact ⟨x, List.mem_cons_of_mem _ hx1, hx2⟩

/-- Malformed stored embedding in the claim's sense, relative to a query
vector: a non-array value, or an array of the wrong length. (Invalid JSON
strings are treated separately: they make `JSON.parse` throw.) -/
def malformedEmbedding (q : List ℝ) : EmbVal → Prop
  | .arr v => v.length ≠ q.length
  | .str (.arrLit v) => v.length ≠ q.length
  | .str .nonArrLit => True
  | .str .empty => True
  | .other => True
  | .null => False
  | .str .invalid => False

/-- C7 (amended): provided no stored embedding is an *invalid JSON string*,
the repository semantic search succeeds, and every item whose embedding is
malformed (non-array, or wrong-length array — the latter scored 0 by
`cosineSimilarity`) is excluded from the results by a positive threshold,
without raising an error. The original claim's invalid-JSON case instead
aborts the search (see the counterexample). -/
theorem C7_malformed_embedding_handling (q : List ℝ)
    (table : List StoredKnowledgeItem) (limit : Nat) (θ : ℝ)
    (hθ : 0 < θ)
    (hno : ∀ it ∈ table, it.embedding ≠ .str .invalid)
    (huuid : (table.map (·.uuid)).Nodup) :
    ∃ results, repoSemanticSearch q table limit θ = .ok results ∧
      ∀ it ∈ table, malformedEmbedding q it.embedding →
        it.uuid ∉ results.map (·.uuid) := by
  have hsub : ∀ x ∈ ((table.filter fun it => it.embedding.notNull).take
      (limit * 3)), x ∈ table :=
    fun x hx => List.mem_of_mem_filter (List.mem_of_mem_take hx)
  rcases collectScored_ok q θ
      ((table.filter fun it => it.embedding.notNull).take (limit * 3))
      (fun it hit => hno it (hsub it hit)) with ⟨rs, hrs, hmem⟩
  refine ⟨(sortByScoreDesc rs).take limit, ?_, ?_⟩
  · simp only [repoSemanticSearch]
    rw [hrs]
    rfl
  · intro it hit hmal hin
    rcases List.mem_map.mp hin with ⟨r, hr, hru⟩
    rcases hmem r (mem_of_mem_sortDesc (List.mem_of_mem_take hr)) with
      ⟨it', hit', v, hv, hrdef, hsc⟩
    have heq : it' = it :=
      List.inj_on_of_nodup_map huuid (hsub it' hit') hit
        (by rw [hrdef] at hru; exact hru)
    subst heq
    rcases hv with hv | hv <;> rw [hv] at hmal <;>
      simp only [malformedEmbedding] at hmal
    · have h0 : cosineSimilarity q v = 0 :=
        (C5_cosine_similarity_props q v).2.2.2 (Or.inl (Ne.symm hmal))
      rw [h0] at hsc
      exact absurd (lt_of_lt_of_le hθ hsc) (lt_irrefl 0)
    · have h0 : cosineSimilarity q v = 0 :=
        (C5_cosine_similarity_props q v).2.2.2 (Or.inl (Ne.symm hmal))
      rw [h0] at hsc
      exact absurd (lt_of_lt_of_le hθ hsc) (lt_irrefl 0)

/-- C7 counterexample: a stored embedding that is an invalid JSON string
makes the repository semantic search raise (here with another, perfectly
matching item in the table), and the service layer then degrades the entire
search to `[]` — the malformed item is not recovered locally by a 0 score. -/
theorem C7_invalid_json_counterexample :
    repoSemanticSearch [1, 0]
        [⟨"bad", "Bad", none, none, .document, .str .invalid⟩,
         ⟨"good", "Good", none, none, .document, .arr [1, 0]⟩] 5 (7/10) =
      .error "Unexpected token in JSON" ∧
    serviceSemanticSearch (.ok [1, 0])
        [⟨"bad", "Bad", none, none, .document, .str .invalid⟩,
         ⟨"good", "Good", none, none, .document, .arr [1, 0]⟩] 5 (7/10) =
      [] :=
  ⟨rfl, rfl⟩

/-- Concrete instantiation of `C7_malformed_embedding_handling`: a single
item with a wrong-length array embedding is excluded without error. -/
theorem C7_malformed_embedding_handling_witness :
    (0 : ℝ) < 7/10 ∧
    ∃ results, repoSemanticSearch [1, 0]
        [⟨"w", "W", none, none, .document, .arr [1]⟩] 5 (7/10) =
      .ok results ∧
      ∀ it ∈ [(⟨"w", "W", none, none, .document, .arr [1]⟩ :
          StoredKnowledgeItem)], malformedEmbedding [1, 0] it.embedding →
        it.uuid ∉ results.map (·.uuid) :=
  ⟨by norm_num,
   C7_malformed_embedding_handling [1, 0]
     [⟨"w", "W", none, none, .document, .arr [1]⟩] 5 (7/10)
     (by norm_num)
     (by
       intro it hit
       rcases List.mem_singleton.mp hit with rfl
       simp)
     (by simp)⟩

/-! ## KnowledgeService.createItem / updateItem (part_008, lines 11–37) with
KnowledgeRepository.create / update (part_007, lines 10–48 and 65–89)

`metadata` (an untyped record) is not modelled; no claim touches it. -/

/-- JS truthiness of an optional string (`undefined` and `''` are falsy). -/
def truthyStr : Option String → Bool
  | none => false
  | some s => s != ""

/-- `KnowledgeItemInput` from `src/types/index.ts`. -/
structure KnowledgeItemInput where
  parentId : Option String
  title : String
  description : Option String
  type : KnowledgeType
  content : Option String
  fileUrl : Option String
  fileSize : Option Nat
  fileType : Option String
  createdBy : String

/-- A `knowledge_items` row as produced by create/update (the fields the
claims inspect). -/
structure KnowledgeRow where
  uuid : String
  title : String
  description : Option String
  type : KnowledgeType
  content : Option String
  fileUrl : Option String
  embedding : Option (List ℝ)
  processedAt : Option Nat
  createdBy : String

/-- `KnowledgeRepository.create`: the row gets an `embedding` and a
`processed_at` timestamp exactly when an embedding argument is passed. -/
def repoCreate (item : KnowledgeItemInput) (embedding : Option (List ℝ))
    (uuid : String) (now : Nat) : KnowledgeRow :=
  { uuid := uuid
    title := item.title
    description := item.description
    type := item.type
    content := item.content
    fileUrl := item.fileUrl
    embedding := embedding
    processedAt := embedding.map fun _ => now
    createdBy := item.createdBy }

/-- `KnowledgeService.createItem`: generate an embedding only when the item
has (truthy) content and its type is `document` or `file`; an embedding
collaborator failure is caught and the item is created without one. -/
def createItem (item : KnowledgeItemInput)
    (embedResult : Except String (List ℝ)) (uuid : String) (now : Nat) :
    KnowledgeRow :=
  let embedding : Option (List ℝ) :=
    if truthyStr item.content &&
        (item.type == KnowledgeType.document ||
         item.type == KnowledgeType.file) then
      match embedResult with
      | .ok e => some e
      | .error _ => none
    else none
  repoCreate item embedding uuid now

/-- `Partial<KnowledgeItemInput>` as used by `updateItem`. -/
structure KnowledgeItemUpdate where
  title : Option String
  description : Option String
  content : Option String
  fileUrl : Option String

/-- `KnowledgeRepository.update`: supplied fields overwrite, and an
embedding argument overwrites `embedding` and `processed_at`. -/
def repoUpdate (row : KnowledgeRow) (updates : KnowledgeItemUpdate)
    (embedding : Option (List ℝ)) (now : Nat) : KnowledgeRow :=
  { row with
    title := updates.title.getD row.title
    description := updates.description.or row.description
    content := updates.content.or row.content
    fileUrl := updates.fileUrl.or row.fileUrl
    embedding := match embedding with
      | some e => some e
      | none => row.embedding
    processedAt := match embedding with
      | some _ => some now
      | none => row.processedAt }

/-- `KnowledgeService.updateItem`: regenerate the embedding whenever
(truthy) new content is supplied, regardless of the item's type. -/
def updateItem (row : KnowledgeRow) (updates : KnowledgeItemUpdate)
    (embedResult : Except String (List ℝ)) (now : Nat) : KnowledgeRow :=
  let embedding : Option (List ℝ) :=
    if truthyStr updates.content then
      match embedResult with
      | .ok e => some e
      | .error _ => none
    else none
  repoUpdate row updates embedding now

/-- C10: `createItem` attaches an embedding only for items with content of
type `document` or `file` (and does attach one there when the collaborator
succeeds); `url`, `url_directory` and `folder` items never get one at
creation even with content; `updateItem` regenerates the embedding whenever
new content is supplied, independent of the item's type. -/
theorem C10_embedding_generation_policy :
    (∀ (item : KnowledgeItemInput) embedResult uuid now,
      (createItem item embedResult uuid now).embedding ≠ none →
        truthyStr item.content = true ∧
        (item.type = .document ∨ item.type = .file)) ∧
    (∀ (item : KnowledgeItemInput) embedResult uuid now v,
      truthyStr item.content = true →
      (item.type = .document ∨ item.type = .file) →
      embedResult = .ok v →
        (createItem item embedResult uuid now).embedding = some v) ∧
    (∀ (item : KnowledgeItemInput) embedResult uuid now,
      (item.type = .url ∨ item.type = .url_directory ∨ item.type = .folder) →
        (createItem item embedResult uuid now).embedding = none) ∧
    (∀ row updates embedResult now v,
      truthyStr updates.content = true →
      embedResult = .ok v →
        (updateItem row updates embedResult now).embedding = some v) := by
  refine ⟨?_, ?_, ?_, ?_⟩
  · intro item embedResult uuid now h
    by_cases hc : (truthyStr item.content &&
        (item.type == KnowledgeType.document ||
         item.type == KnowledgeType.file)) = true
    · rcases Bool.and_eq_true_iff.mp hc with ⟨h1, h2⟩
      refine ⟨h1, ?_⟩
      rcases Bool.or_eq_true_iff.mp h2 with h2 | h2
      · exact Or.inl (beq_iff_eq.mp h2)
      · exact Or.inr (beq_iff_eq.mp h2)
    · exfalso
      apply h
      simp only [Bool.not_eq_true] at hc
      simp [createItem, repoCreate, hc]
  · intro item embedResult uuid now v h1 h2 h3
    subst h3
    have hc : (truthyStr item.content &&
        (item.type == KnowledgeType.document ||
         item.type == KnowledgeType.file)) = true := by
      rcases h2 with h2 | h2 <;> simp [h1, h2]
    simp [createItem, repoCreate, hc]
  · intro item embedResult uuid now h
    rcases h with h | h | h <;> simp [createItem, repoCreate, h]
  · intro row updates embedResult now v h1 h2
    subst h2
    simp [updateItem, repoUpdate, h1]

/-- Concrete instantiation of `C10_embedding_generation_policy`: a document
with content gets the generated embedding, a url with content does not, and
an update supplying content regenerates the embedding. -/
theorem C10_embedding_generation_policy_witness :
    (createItem ⟨none, "T", none, .document, some "hello", none, none, none,
        "u"⟩ (.ok [1]) "id1" 3).embedding = some [1] ∧
    (createItem ⟨none, "T", none, .url, some "hello", none, none, none,
        "u"⟩ (.ok [1]) "id2" 3).embedding = none ∧
    (updateItem ⟨"id2", "T", none, .url, some "hello", none, none, none, "u"⟩
        ⟨none, none, some "fresh", none⟩ (.ok [2]) 7).embedding = some [2] :=
  ⟨C10_embedding_generation_policy.2.1 _ _ "id1" 3 [1] rfl (Or.inl rfl) rfl,
   C10_embedding_generation_policy.2.2.1 _ (.ok [1]) "id2" 3 (Or.inl rfl),
   C10_embedding_generation_policy.2.2.2 _ _ _ 7 [2] rfl rfl⟩

/-! ## PersonalityRepository.save (FeedbackRepository.ts, lines 127–149) and
PersonalityService.buildPersonality / setPersonality (part_009, lines 33–90)

The personality table is a list of records; `save` issues
`delete().neq('uuid', <zero uuid>)` — keeping only rows carrying the
all-zeros uuid — and then inserts the new row, whose uuid and
`last_built_at` come from the database environment. Profile metadata
(tone/domain/description) is not modelled; no claim touches it. -/

structure PersonalityRecord where
  uuid : String
  name : String
  systemPrompt : String
  lastBuiltAt : Nat

def zeroUuid : String := "00000000-0000-0000-0000-000000000000"

/-- `PersonalityRepository.save`: delete every row whose uuid differs from
the all-zeros uuid, then insert the new record. -/
def personalitySave (table : List PersonalityRecord)
    (name systemPrompt : String) (uuid : String) (now : Nat) :
    List PersonalityRecord :=
  (table.filter fun r => r.uuid == zeroUuid) ++ [⟨uuid, name, systemPrompt, now⟩]

/-- `x || 'default'` on an optional string. -/
def jsOr (o : Option String) (d : String) : String :=
  match o with
  | some s => if s == "" then d else s
  | none => d

def buildGenericSystemPrompt (name : String) : String :=
  "You are " ++ name ++ ", a helpful AI assistant.\n\nYour role is to:\n- Answer user questions clearly and accurately\n- Provide helpful guidance and support\n- Be professional, friendly, and respectful\n- Admit when you don't know something\n- Ask clarifying questions when needed\n\nAlways strive to be helpful while maintaining a professional demeanor."

def buildKnowledgeBasedSystemPrompt (name kbSummary : String) : String :=
  "You are " ++ name ++ ", an AI assistant with expertise based on the following knowledge:\n\n" ++ kbSummary ++ "\n\nYour role is to:\n- Answer questions using the knowledge base when relevant\n- Provide accurate information based on the available knowledge\n- Be helpful, clear, and professional in your responses\n- Admit when information is outside your knowledge base\n- Guide users to relevant resources when available\n\nWhen answering questions:\n1. Search your knowledge base for relevant information\n2. Provide accurate, well-structured answers\n3. Cite specific knowledge when applicable\n4. Be honest about limitations in your knowledge"

/-- Environment of one `buildPersonality` call: configuration, the
`topRecent` corpus sample, the summarization collaborator's outcome, and the
database-assigned uuid and timestamp of the inserted record. -/
structure BuildEnv where
  customInstructions : Option String
  configName : Option String
  topItems : List SearchResult
  kbSummary : Except String String
  uuid : String
  now : Nat

/-- `PersonalityService.buildPersonality`: custom-instruction override,
generic fallback on an empty corpus, or knowledge-grounded prompt from the
summarization collaborator (whose failure propagates, before any save). -/
def buildPersonality (env : BuildEnv) (table : List PersonalityRecord) :
    Except String (List PersonalityRecord × String) :=
  if truthyStr env.customInstructions then
    let name := jsOr env.configName "AI Assistant"
    let systemPrompt := env.customInstructions.getD ""
    .ok (personalitySave table name systemPrompt env.uuid env.now, systemPrompt)
  else if env.topItems.isEmpty then
    let name := jsOr env.configName "AI Assistant"
    let systemPrompt := buildGenericSystemPrompt name
    .ok (personalitySave table name systemPrompt env.uuid env.now, systemPrompt)
  else
    match env.kbSummary with
    | .error e => .error e
    | .ok kbSummary =>
      let name := jsOr env.configName "AI Assistant"
      let systemPrompt := buildKnowledgeBasedSystemPrompt name kbSummary
      .ok (personalitySave table name systemPrompt env.uuid env.now, systemPrompt)

/-- `PersonalityService.setPersonality`. -/
def setPersonality (table : List PersonalityRecord) (systemPrompt : String)
    (profileName : Option String) (uuid : String) (now : Nat) :
    List PersonalityRecord :=
  personalitySave table (jsOr profileName "AI Assistant") systemPrompt uuid now

/-- One public personality operation. -/
inductive PersonalityOp where
  | build (env : BuildEnv)
  | set (systemPrompt : String) (profileName : Option String)
      (uuid : String) (now : Nat)

def opUuid : PersonalityOp → String
  | .build env => env.uuid
  | .set _ _ u _ => u

def opTime : PersonalityOp → Nat
  | .build env => env.now
  | .set _ _ _ t => t

/-- Whether the operation reaches `PersonalityRepository.save` (a `set`
always does; a `build` does unless the summarization collaborator fails). -/
def opPerformsSave : PersonalityOp → Bool
  | .set _ _ _ _ => true
  | .build env =>
    truthyStr env.customInstructions || env.topItems.isEmpty ||
      (match env.kbSummary with
       | .ok _ => true
       | .error _ => false)

/-- Applying one operation to the personality table (a failed build leaves
the table unchanged — it throws before any save). -/
def applyOp (table : List PersonalityRecord) : PersonalityOp →
    List PersonalityRecord
  | .build env =>
    match buildPersonality env table with
    | .ok (t, _) => t
    | .error _ => table
  | .set sp pn uuid now => setPersonality table sp pn uuid now

def applyOps (table : List PersonalityRecord) :
    List PersonalityOp → List PersonalityRecord
  | [] => table
  | op :: rest => applyOps (applyOp table op) rest

/-- A saving operation turns any zero-uuid-free table into exactly the new
singleton record, stamped with the operation's uuid and time. -/
theorem applyOp_saves (table : List PersonalityRecord) (op : PersonalityOp)
    (h1 : ∀ r ∈ table, r.uuid ≠ zeroUuid)
    (hs : opPerformsSave op = true) :
    ∃ n p, applyOp table op = [⟨opUuid op, n, p, opTime op⟩] := by
  have hfil : (table.filter fun r => r.uuid == zeroUuid) = [] := by
    rw [List.filter_eq_nil_iff]
    intro r hr
    simpa using h1 r hr
  cases op with
  | set sp pn uuid now =>
    exact ⟨jsOr pn "AI Assistant", sp, by
      simp [applyOp, setPersonality, personalitySave, hfil, opUuid, opTime]⟩
  | build env =>
    by_cases hci : truthyStr env.customInstructions = true
    · exact ⟨jsOr env.configName "AI Assistant",
        env.customInstructions.getD "", by
        simp [applyOp, buildPersonality, hci, personalitySave, hfil,
          opUuid, opTime]⟩
    · by_cases hti : env.topItems.isEmpty = true
      · exact ⟨jsOr env.configName "AI Assistant",
          buildGenericSystemPrompt (jsOr env.configName "AI Assistant"), by
          simp [applyOp, buildPersonality, hci, hti, personalitySave, hfil,
            opUuid, opTime]⟩
      · cases hkb : env.kbSummary with
        | ok s =>
          exact ⟨jsOr env.configName "AI Assistant",
            buildKnowledgeBasedSystemPrompt
              (jsOr env.configName "AI Assistant") s, by
            simp [applyOp, buildPersonality, hci, hti, hkb,
              personalitySave, hfil, opUuid, opTime]⟩
        | error e =>
          exfalso
          simp [opPerformsSave, hci, hti, hkb] at hs

theorem applyOp_no_save (table : List PersonalityRecord)
    (op : PersonalityOp) (hs : opPerformsSave op = false) :
    applyOp table op = table := by
  cases op with
  | set sp pn uuid now => simp [opPerformsSave] at hs
  | build env =>
    simp only [opPerformsSave, Bool.or_eq_false_iff] at hs
    rcases hs with ⟨⟨hci, hti⟩, hkb⟩
    cases hkbv : env.kbSummary with
    | ok s => rw [hkbv] at hkb; simp at hkb
    | error e => simp [applyOp, buildPersonality, hci, hti, hkbv]

theorem applyOps_singleton (table : List PersonalityRecord)
    (ops : List PersonalityOp)
    (h1 : ∀ r ∈ table, r.uuid ≠ zeroUuid)
    (h2 : ∀ op ∈ ops, opUuid op ≠ zeroUuid) :
    (ops.any opPerformsSave = true →
      ∃ rec, applyOps table ops = [rec] ∧ rec.uuid ≠ zeroUuid) ∧
    (ops.any opPerformsSave = false → applyOps table ops = table) := by
  induction ops generalizing table with
  | nil => exact ⟨by simp, fun _ => rfl⟩
  | cons op rest ih =>
    by_cases hs : opPerformsSave op = true
    · rcases applyOp_saves table op h1 hs with ⟨n, p, hsave⟩
      have hz : opUuid op ≠ zeroUuid := h2 op (List.mem_cons_self _ _)
      have h1' : ∀ r ∈ [(⟨opUuid op, n, p, opTime op⟩ : PersonalityRecord)],
          r.uuid ≠ zeroUuid := by
        intro r hr
        rcases List.mem_singleton.mp hr with rfl
        exact hz
      have ih' := ih _ h1' (fun o ho => h2 o (List.mem_cons_of_mem _ ho))
      constructor
      · intro _
        by_cases hrest : rest.any opPerformsSave = true
        · rcases ih'.1 hrest with ⟨rec, hrec, hrz⟩
          exact ⟨rec, by simpa [applyOps, hsave] using hrec, hrz⟩
        · have := ih'.2 (Bool.eq_false_iff.mpr hrest)
          exact ⟨⟨opUuid op, n, p, opTime op⟩,
            by simpa [applyOps, hsave] using this, hz⟩
      · intro hall
        simp [List.any_cons, hs] at hall
    · have hs' : opPerformsSave op = false := Bool.eq_false_iff.mpr hs
      have hskip := applyOp_no_save table op hs'
      have ih' := ih table h1 (fun o ho => h2 o (List.mem_cons_of_mem _ ho))
      constructor
      · intro hany
        have : rest.any opPerformsSave = true := by
          simpa [List.any_cons, hs'] using hany
        rcases ih'.1 this with ⟨rec, hrec, hrz⟩
        exact ⟨rec, by simpa [applyOps, hskip] using hrec, hrz⟩
      · intro hall
        have : rest.any opPerformsSave = false := by
          simpa [List.any_cons, hs'] using hall
        simpa [applyOps, hskip] using ih'.2 this

/-- C8: starting from any personality table without the sentinel all-zeros
uuid, after any sequence of `build`/`set` operations containing at least one
actually-saving operation, exactly one Personality record exists (each save
deletes the prior record before inserting), a saving operation stamps the
surviving record with its own time, and when the clock strictly advances
between two consecutive saving operations the surviving record's
`lastBuiltAt` strictly increases. -/
theorem C8_personality_singleton (table : List PersonalityRecord)
    (ops : List PersonalityOp)
    (h1 : ∀ r ∈ table, r.uuid ≠ zeroUuid)
    (h2 : ∀ op ∈ ops, opUuid op ≠ zeroUuid)
    (h3 : ops.any opPerformsSave = true) :
    (∃ rec, applyOps table ops = [rec]) ∧
    (∀ op, opPerformsSave op = true → opUuid op ≠ zeroUuid →
      ∀ rec ∈ applyOp table op, rec.lastBuiltAt = opTime op) ∧
    (∀ op₁ op₂, opPerformsSave op₁ = true → opPerformsSave op₂ = true →
      opUuid op₁ ≠ zeroUuid → opUuid op₂ ≠ zeroUuid →
      opTime op₁ < opTime op₂ →
      ∀ r₁ ∈ applyOp table op₁, ∀ r₂ ∈ applyOp (applyOp table op₁) op₂,
        r₁.lastBuiltAt < r₂.lastBuiltAt) := by
  refine ⟨((applyOps_singleton table ops h1 h2).1 h3).elim
    (fun rec h => ⟨rec, h.1⟩), ?_, ?_⟩
  · intro op hs hz rec hrec
    rcases applyOp_saves table op h1 hs with ⟨n, p, hsave⟩
    rw [hsave] at hrec
    rcases List.mem_singleton.mp hrec with rfl
    rfl
  · intro op₁ op₂ hs₁ hs₂ hz₁ hz₂ ht r₁ hr₁ r₂ hr₂
    rcases applyOp_saves table op₁ h1 hs₁ with ⟨n₁, p₁, hsave₁⟩
    have h1' : ∀ r ∈ applyOp table op₁, r.uuid ≠ zeroUuid := by
      rw [hsave₁]
      intro r hr
      rcases List.mem_singleton.mp hr with rfl
      exact hz₁
    rcases applyOp_saves (applyOp table op₁) op₂ h1' hs₂ with ⟨n₂, p₂, hsave₂⟩
    rw [hsave₁] at hr₁
    rw [hsave₂] at hr₂
    rcases List.mem_singleton.mp hr₁ with rfl
    rcases List.mem_singleton.mp hr₂ with rfl
    exact ht

/-- Concrete instantiation of `C8_personality_singleton`: one `set` followed
by one custom-instruction `build` on an empty table. -/
theorem C8_personality_singleton_witness :
    ∃ rec, applyOps []
      [.set "be brief" none "u1" 5,
       .build ⟨some "be kind", some "Bot", [], .ok "sum", "u2", 9⟩] = [rec] :=
  (C8_personality_singleton []
    [.set "be brief" none "u1" 5,
     .build ⟨some "be kind", some "Bot", [], .ok "sum", "u2", 9⟩]
    (by simp)
    (by
      intro op hop
      rcases List.mem_cons.mp hop with rfl | hop
      · simp [opUuid, zeroUuid]
      · rcases List.mem_singleton.mp hop with rfl
        simp [opUuid, zeroUuid])
    rfl).1

/-! ## Conversation turn orchestration
(`AssistantAI.sendMessage` / `streamMessage`, AssistantAI.ts lines 130–340,
with ConversationRepository and MessageRepository from
MessageRepository.ts)

The database is a `DBState`; each repository call reads/writes it.
Collaborator outcomes (init, conversation/message insert results including
db-assigned uuids and timestamps, knowledge search results, personality
fetch, model completion or stream) are supplied in a `TurnEnv`. Message
`metadata` is not modelled (no claim touches it); `init`'s possible
personality build touches only the personality table, which is disjoint
from `DBState`. -/

structure Conversation where
  uuid : String
  creatorId : String
  title : String
  messageCount : Nat
  deleted : Bool
deriving DecidableEq, Repr

/-- A `messages` row: `id` is the internal serial key, `uuid` the external
identifier; `parentMessageId` stores the parent row's internal id (as the
source's `mapRow` surfaces it). -/
structure Message where
  id : Nat
  uuid : String
  conversationUuid : String
  parentMessageId : Option Nat
  type : MsgType
  content : String
  status : String
  createdAt : Nat
deriving DecidableEq, Repr

structure DBState where
  conversations : List Conversation
  messages : List Message
  nextMessageId : Nat
deriving DecidableEq, Repr

/-- `ConversationRepository.getById`: by uuid, not soft-deleted. -/
def findConv (convs : List Conversation) (uuid : String) :
    Option Conversation :=
  convs.find? fun c => c.uuid == uuid && !c.deleted

def convGetById (s : DBState) (uuid : String) : Option Conversation :=
  findConv s.conversations uuid

/-- The conversation lookup inside `MessageRepository.create` /
`listByConversation` (`.select('id').eq('uuid', …)`, no soft-delete
filter). -/
def convLookupAny (s : DBState) (uuid : String) : Option Conversation :=
  s.conversations.find? fun c => c.uuid == uuid

/-- `ConversationRepository.create`: insert with `message_count: 0`;
the uuid is database-assigned. -/
def convCreate (s : DBState) (userId title uuid : String) :
    DBState × Conversation :=
  let c : Conversation := ⟨uuid, userId, title, 0, false⟩
  ({ s with conversations := s.conversations ++ [c] }, c)

/-- `ConversationRepository.updateMessageCount`. -/
def updateMessageCount (s : DBState) (uuid : String) (count : Nat) :
    DBState :=
  { s with conversations := s.conversations.map fun c =>
      if c.uuid == uuid then { c with messageCount := count } else c }

/-- `MessageRepository.create`: resolve the conversation, resolve the
optional parent uuid to an internal id (silently dropped when absent),
insert with status `completed`. `err` is the insert call's failure
outcome. -/
def messageCreate (s : DBState) (conversationId : String) (type : MsgType)
    (content : String) (parentMessageId : Option String) (uuid : String)
    (now : Nat) (err : Option String) : Except String (DBState × Message) :=
  match convLookupAny s conversationId with
  | none => .error "Conversation not found"
  | some _ =>
    match err with
    | some e => .error ("Failed to create message: " ++ e)
    | none =>
      let parentId : Option Nat :=
        match parentMessageId with
        | none => none
        | some pu => (s.messages.find? fun m => m.uuid == pu).map (·.id)
      let msg : Message :=
        ⟨s.nextMessageId, uuid, conversationId, parentId, type, content,
         "completed", now⟩
      .ok ({ s with
              messages := s.messages ++ [msg],
              nextMessageId := s.nextMessageId + 1 }, msg)

/-- Insertion step for the database's `order('created_at', ascending)`. -/
def insertByCreatedAt (m : Message) : List Message → List Message
  | [] => [m]
  | x :: xs =>
    if x.createdAt ≤ m.createdAt then x :: insertByCreatedAt m xs
    else m :: x :: xs

def sortByCreatedAt : List Message → List Message
  | [] => []
  | x :: xs => insertByCreatedAt x (sortByCreatedAt xs)

/-- `MessageRepository.listByConversation`: the conversation's messages in
ascending `created_at` order, truncated to `limit`. -/
def listByConversation (s : DBState) (conversationId : String)
    (limit : Nat) : Except String (List Message) :=
  match convLookupAny s conversationId with
  | none => .error "Conversation not found"
  | some _ =>
    .ok ((sortByCreatedAt
      (s.messages.filter fun m => m.conversationUuid == conversationId)
      ).take limit)

/-- `messages.slice(0, -1).map(msg => ({role: msg.type, content:
msg.content}))` (AssistantAI.ts lines 176–179). -/
def historyFromMessages (messages : List Message) :
    List (MsgType × String) :=
  messages.dropLast.map fun m => (m.type, m.content)

/-- `result.content || result.description || ''`. -/
def jsOrOpt (a b : Option String) : String :=
  if truthyStr a then a.getD "" else if truthyStr b then b.getD "" else ""

/-- `KnowledgeService.formatKnowledgeContext` (part_008, lines 98–107). -/
def formatKnowledgeContext (results : List SearchResult) : String :=
  if results.isEmpty then ""
  else results.foldl (fun ctx r =>
      ctx ++ "- " ++ r.title ++ ": " ++
        (jsOrOpt r.content r.description).take 300 ++ "\n")
    "Relevant information from knowledge base:\n\n"

structure SendMessageInput where
  conversationId : Option String
  userId : Option String
  message : String
deriving DecidableEq, Repr

structure SendMessageOutput where
  content : String
  conversationId : String
  messageId : String
deriving DecidableEq, Repr

inductive StreamEvent where
  | start (conversationId : String)
  | delta (content : String)
  | final (content : String) (messageId : String) (conversationId : String)
  | error (message : String)
deriving DecidableEq, Repr

/-- Collaborator outcomes for one turn. -/
structure TurnEnv where
  initErr : Option String
  convUuid : String
  convCreateErr : Option String
  userUuid : String
  userInsertErr : Option String
  userTime : Nat
  knowledgeResults : List SearchResult
  personality : Except String String
  aiResponse : Except String String
  chunks : List String
  streamErr : Option String
  assistantUuid : String
  assistantInsertErr : Option String
  assistantTime : Nat
  updateCountErr : Option String

def invalidInputMsg : String :=
  "Either conversationId (to continue existing conversation) or userId (to create new conversation) is required"

/-- The get-or-create conversation step shared by both turn variants
(AssistantAI.ts lines 140–157 and 238–255): auto-create when no (truthy)
conversationId was supplied, otherwise require an existing, not
soft-deleted conversation. -/
def resolveConversation (env : TurnEnv) (s : DBState)
    (input : SendMessageInput) : Except String (DBState × String) :=
  if !truthyStr input.conversationId then
    match env.convCreateErr with
    | some e => .error ("Failed to create conversation: " ++ e)
    | none =>
      let (s', c) := convCreate s (input.userId.getD "") "New Conversation"
        env.convUuid
      .ok (s', c.uuid)
  else
    match convGetById s (input.conversationId.getD "") with
    | none =>
      .error ("Conversation not found: " ++ input.conversationId.getD "")
    | some _ => .ok (s, input.conversationId.getD "")

/-- `AssistantAI.sendMessage`: returns the database state after the call
together with the call's outcome (an error models a thrown exception). -/
def sendMessage (env : TurnEnv) (s : DBState) (input : SendMessageInput) :
    DBState × Except String SendMessageOutput :=
  match env.initErr with
  | some e => (s, .error e)
  | none =>
    if !truthyStr input.conversationId && !truthyStr input.userId then
      (s, .error invalidInputMsg)
    else
      match resolveConversation env s input with
      | .error e => (s, .error e)
      | .ok (s1, conversationId) =>
        match messageCreate s1 conversationId .user input.message none
            env.userUuid env.userTime env.userInsertErr with
        | .error e => (s1, .error e)
        | .ok (s2, userMessage) =>
          match listByConversation s2 conversationId 10 with
          | .error e => (s2, .error e)
          | .ok _messages =>
            -- the computed `historyFromMessages _messages` and
            -- `formatKnowledgeContext env.knowledgeResults` are handed to
            -- the model collaborator, whose outcome is `env.aiResponse`
            match env.personality with
            | .error e => (s2, .error e)
            | .ok _systemPrompt =>
              match env.aiResponse with
              | .error e => (s2, .error e)
              | .ok aiResponse =>
                match messageCreate s2 conversationId .assistant aiResponse
                    (some userMessage.uuid) env.assistantUuid
                    env.assistantTime env.assistantInsertErr with
                | .error e => (s2, .error e)
                | .ok (s3, assistantMessage) =>
                  match convGetById s3 conversationId with
                  | none =>
                    (s3, .ok ⟨aiResponse, conversationId,
                      assistantMessage.uuid⟩)
                  | some conversation =>
                    match env.updateCountErr with
                    | some e => (s3, .error e)
                    | none =>
                      (updateMessageCount s3 conversationId
                        (conversation.messageCount + 2),
                       .ok ⟨aiResponse, conversationId,
                        assistantMessage.uuid⟩)

/-- Body of the `try` block of `AssistantAI.streamMessage`: the emitted
event sequence (any thrown step becomes a single terminal `error` event)
and the final database state. -/
def streamBody (env : TurnEnv) (s : DBState) (input : SendMessageInput) :
    List StreamEvent × DBState :=
  if !truthyStr input.conversationId && !truthyStr input.userId then
    ([.error invalidInputMsg], s)
  else
    match resolveConversation env s input with
    | .error e => ([.error e], s)
    | .ok (s1, conversationId) =>
      match messageCreate s1 conversationId .user input.message none
          env.userUuid env.userTime env.userInsertErr with
      | .error e => ([.start conversationId, .error e], s1)
      | .ok (s2, userMessage) =>
        match listByConversation s2 conversationId 10 with
        | .error e => ([.start conversationId, .error e], s2)
        | .ok _messages =>
          -- history and knowledge context are computed as in `sendMessage`
          -- and handed to the model collaborator, whose incremental output
          -- is `env.chunks` (possibly cut short by `env.streamErr`)
          match env.personality with
          | .error e => ([.start conversationId, .error e], s2)
          | .ok _systemPrompt =>
            match env.streamErr with
            | some e =>
              (.start conversationId :: env.chunks.map StreamEvent.delta ++
                [.error e], s2)
            | none =>
              match messageCreate s2 conversationId .assistant
                  (String.join env.chunks) (some userMessage.uuid)
                  env.assistantUuid env.assistantTime
                  env.assistantInsertErr with
              | .error e =>
                (.start conversationId :: env.chunks.map StreamEvent.delta
                  ++ [.error e], s2)
              | .ok (s3, assistantMessage) =>
                match convGetById s3 conversationId with
                | none =>
                  (.start conversationId :: env.chunks.map StreamEvent.delta
                    ++ [.final (String.join env.chunks)
                      assistantMessage.uuid conversationId], s3)
                | some conversation =>
                  match env.updateCountErr with
                  | some e =>
                    (.start conversationId ::
                      env.chunks.map StreamEvent.delta ++ [.error e], s3)
                  | none =>
                    (.start conversationId ::
                      env.chunks.map StreamEvent.delta ++
                      [.final (String.join env.chunks)
                        assistantMessage.uuid conversationId],
                     updateMessageCount s3 conversationId
                       (conversation.messageCount + 2))

/-- `AssistantAI.streamMessage`: `await this.init()` sits *outside* the
`try`, so an init failure rejects the whole iteration (no events);
otherwise the consumed-to-completion event list is `streamBody`'s. -/
def streamMessage (env : TurnEnv) (s : DBState)
    (input : SendMessageInput) :
    Except String (List StreamEvent × DBState) :=
  match env.initErr with
  | some e => .error e
  | none => .ok (streamBody env s input)

def isTerminal : StreamEvent → Bool
  | .final _ _ _ => true
  | .error _ => true
  | _ => false

theorem messageCreate_ok {s : DBState} {cid : String} {type : MsgType}
    {content : String} {parent : Option String} {uuid : String} {now : Nat}
    {err : Option String} {s' : DBState} {m : Message}
    (h : messageCreate s cid type content parent uuid now err =
      .ok (s', m)) :
    s'.conversations = s.conversations ∧
    s'.messages = s.messages ++ [m] ∧
    s'.nextMessageId = s.nextMessageId + 1 ∧
    m.uuid = uuid ∧ m.conversationUuid = cid ∧ m.type = type ∧
    m.content = content ∧ m.id = s.nextMessageId ∧ m.createdAt = now ∧
    (parent = none → m.parentMessageId = none) ∧
    (∀ pu, parent = some pu →
      m.parentMessageId =
        (s.messages.find? fun mm => mm.uuid == pu).map (·.id)) := by
  unfold messageCreate at h
  split at h
  · exact absurd h (by simp)
  · split at h
    · exact absurd h (by simp)
    · simp only [Except.ok.injEq, Prod.mk.injEq] at h
      obtain ⟨hs, hm⟩ := h
      subst hs
      subst hm
      refine ⟨rfl, rfl, rfl, rfl, rfl, rfl, rfl, rfl, rfl, ?_, ?_⟩
      · intro hp
        subst hp
        rfl
      · intro pu hp
        subst hp
        rfl

theorem resolveConversation_ok {env : TurnEnv} {s : DBState}
    {input : SendMessageInput} {s1 : DBState} {cid : String}
    (h : resolveConversation env s input = .ok (s1, cid)) :
    (truthyStr input.conversationId = false ∧ env.convCreateErr = none ∧
      cid = env.convUuid ∧
      s1.conversations = s.conversations ++
        [⟨env.convUuid, input.userId.getD "", "New Conversation", 0,
          false⟩] ∧
      s1.messages = s.messages ∧ s1.nextMessageId = s.nextMessageId) ∨
    (truthyStr input.conversationId = true ∧ s1 = s ∧
      cid = input.conversationId.getD "" ∧
      ∃ c, convGetById s cid = some c) := by
  unfold resolveConversation at h
  split at h
  case isTrue hc =>
    left
    have hcf : truthyStr input.conversationId = false := by
      simpa using hc
    split at h
    · exact absurd h (by simp)
    case h_2 herr =>
      simp only [convCreate, Except.ok.injEq, Prod.mk.injEq] at h
      obtain ⟨hs, hcid⟩ := h
      subst hs
      exact ⟨hcf, herr, hcid.symm, rfl, rfl, rfl⟩
  case isFalse hc =>
    right
    have hct : truthyStr input.conversationId = true := by
      simpa using hc
    split at h
    · exact absurd h (by simp)
    case h_2 c hfound =>
      simp only [Except.ok.injEq, Prod.mk.injEq] at h
      obtain ⟨hs, hcid⟩ := h
      subst hs
      exact ⟨hct, rfl, hcid.symm, c, hcid ▸ hfound⟩

/-- C3 (amended): *at least one* of `conversationId`/`userId` is required:
when neither is supplied, both `sendMessage` and `streamMessage` fail with
the InvalidInput error before any message or conversation is persisted
(the state is returned unchanged). Supplying both is accepted — the
conversationId path is taken — contrary to the claim's "exactly one"
(see the counterexample). -/
theorem C3_discriminator_validation (env : TurnEnv) (s : DBState)
    (input : SendMessageInput) (hinit : env.initErr = none)
    (hc : truthyStr input.conversationId = false)
    (hu : truthyStr input.userId = false) :
    sendMessage env s input = (s, .error invalidInputMsg) ∧
    streamMessage env s input = .ok ([.error invalidInputMsg], s) := by
  constructor
  · unfold sendMessage
    rw [hinit]
    simp [hc, hu]
  · unfold streamMessage streamBody
    rw [hinit]
    simp [hc, hu]

/-- C3 counterexample: with *both* `conversationId` and `userId` supplied
(and every collaborator succeeding), `sendMessage` succeeds — it does not
fail with an InvalidInput error as the claim requires. -/
theorem C3_both_supplied_counterexample :
    (sendMessage
      ⟨none, "cX", none, "mu", none, 1, [], .ok "p", .ok "hello", [],
        none, "ma", none, 2, none⟩
      ⟨[⟨"c1", "u1", "T", 0, false⟩], [], 0⟩
      ⟨some "c1", some "u1", "hi"⟩).2 = .ok ⟨"hello", "c1", "ma"⟩ := rfl

/-- Concrete instantiation of `C3_discriminator_validation`: neither
discriminator supplied. -/
theorem C3_discriminator_validation_witness :
    sendMessage
      ⟨none, "cX", none, "mu", none, 1, [], .ok "p", .ok "hello", [],
        none, "ma", none, 2, none⟩
      ⟨[⟨"c1", "u1", "T", 0, false⟩], [], 0⟩
      ⟨none, none, "hi"⟩ =
      (⟨[⟨"c1", "u1", "T", 0, false⟩], [], 0⟩, .error invalidInputMsg) :=
  (C3_discriminator_validation
    ⟨none, "cX", none, "mu", none, 1, [], .ok "p", .ok "hello", [],
      none, "ma", none, 2, none⟩
    ⟨[⟨"c1", "u1", "T", 0, false⟩], [], 0⟩
    ⟨none, none, "hi"⟩ rfl rfl rfl).1

theorem find?_append_none {α : Type _} {p : α → Bool} {l₁ : List α}
    (l₂ : List α) (h : l₁.find? p = none) :
    (l₁ ++ l₂).find? p = l₂.find? p := by
  rw [List.find?_append, h]
  rfl

theorem convGetById_update {s : DBState} {cid : String} {c : Conversation}
    (h : convGetById s cid = some c) (n : Nat) :
    convGetById (updateMessageCount s cid n) cid =
      some { c with messageCount := n } := by
  have h' : s.conversations.find?
      (fun d => d.uuid == cid && !d.deleted) = some c := by
    simpa [convGetById, findConv] using h
  have hc : (c.uuid == cid) = true := by
    have hpc := List.find?_some h'
    simp only [Bool.and_eq_true_iff] at hpc
    exact hpc.1
  simp only [convGetById, findConv, updateMessageCount]
  rw [List.find?_map]
  have hcomp : ((fun d : Conversation => d.uuid == cid && !d.deleted) ∘
      (fun d : Conversation =>
        if d.uuid == cid then { d with messageCount := n } else d)) =
      fun d : Conversation => d.uuid == cid && !d.deleted := by
    funext x
    by_cases hx : (x.uuid == cid) = true
    · simp [Function.comp, hx]
    · simp [Function.comp, hx]
  rw [hcomp, h']
  simp only [Option.map_some']
  rw [if_pos hc]

/-- C1: for every successful `sendMessage`, the final state holds exactly
the prior messages plus one user and one assistant message of the returned
conversation, the assistant message's parent identifier equals the user
message's identifier, and the conversation's message count is the prior
count (0 for an auto-created conversation) plus exactly 2. The freshness
hypotheses say the database-assigned uuids are new. -/
theorem C1_turn_atomicity (env : TurnEnv) (s s' : DBState)
    (input : SendMessageInput) (out : SendMessageOutput)
    (hrun : sendMessage env s input = (s', .ok out))
    (hfreshU : ∀ m ∈ s.messages, m.uuid ≠ env.userUuid)
    (hconvFresh : ∀ c ∈ s.conversations, c.uuid ≠ env.convUuid) :
    ∃ u a : Message,
      s'.messages = s.messages ++ [u, a] ∧
      u.type = .user ∧ a.type = .assistant ∧
      u.content = input.message ∧
      u.conversationUuid = out.conversationId ∧
      a.conversationUuid = out.conversationId ∧
      a.parentMessageId = some u.id ∧
      a.uuid = out.messageId ∧
      ∃ c', convGetById s' out.conversationId = some c' ∧
        c'.messageCount =
          (match convGetById s out.conversationId with
           | some c => c.messageCount
           | none => 0) + 2 := by
  unfold sendMessage at hrun
  split at hrun
  · exact absurd hrun (by simp)
  split at hrun
  · exact absurd hrun (by simp)
  split at hrun
  · exact absurd hrun (by simp)
  next s1 cid hres =>
  split at hrun
  · exact absurd hrun (by simp)
  next s2 userMessage huser =>
  split at hrun
  · exact absurd hrun (by simp)
  next msgs hlist =>
  split at hrun
  · exact absurd hrun (by simp)
  next sp hpers =>
  split at hrun
  · exact absurd hrun (by simp)
  next aiResponse hai =>
  split at hrun
  · exact absurd hrun (by simp)
  next s3 assistantMessage hassist =>
  -- facts from the two message inserts and the conversation resolution
  obtain ⟨mc1conv, mc1msgs, mc1next, mu_uuid, mu_conv, mu_type, mu_content,
    mu_id, mu_time, mu_parent, _⟩ := messageCreate_ok huser
  obtain ⟨mc2conv, mc2msgs, mc2next, ma_uuid, ma_conv, ma_type, ma_content,
    ma_id, ma_time, _, ma_parent⟩ := messageCreate_ok hassist
  have hres' := resolveConversation_ok hres
  have hs1msgs : s1.messages = s.messages := by
    rcases hres' with ⟨_, _, _, _, hm, _⟩ | ⟨_, rfl, _, _⟩
    · exact hm
    · rfl
  -- the conversation re-read after the inserts
  have hconv3 : convGetById s3 cid =
      match hres' with
      | _ => convGetById s3 cid := rfl
  have hnoneU : s.messages.find?
      (fun mm => mm.uuid == userMessage.uuid) = none :=
    List.find?_eq_none.mpr (by
      intro m hm
      simp only [beq_iff_eq, mu_uuid]
      exact hfreshU m hm)
  have hparent : assistantMessage.parentMessageId =
      some userMessage.id := by
    rw [ma_parent userMessage.uuid rfl, mc1msgs, hs1msgs,
      find?_append_none _ hnoneU, List.find?_cons_of_pos _ (by simp)]
    rfl
  have hconvs3 : s3.conversations = s1.conversations := by
    rw [mc2conv, mc1conv]
  have hre : convGetById s3 cid =
      some (match convGetById s cid with
        | some c => c
        | none => ⟨env.convUuid, input.userId.getD "", "New Conversation",
            0, false⟩) := by
    rcases hres' with ⟨_, _, rfl, hconvs1, _, _⟩ |
      ⟨_, hs1eq, _, c, hfound⟩
    · have hnone : s.conversations.find?
          (fun d => d.uuid == env.convUuid && !d.deleted) = none :=
        List.find?_eq_none.mpr (by
          intro d hd
          simp only [Bool.and_eq_true_iff, beq_iff_eq, Bool.not_eq_true]
          rintro ⟨h1, _⟩
          exact hconvFresh d hd h1)
      have hcg : convGetById s env.convUuid = none := by
        simpa [convGetById, findConv] using hnone
      show findConv s3.conversations env.convUuid = _
      rw [hconvs3, hconvs1]
      show (s.conversations ++ [_]).find? _ = _
      rw [find?_append_none _ hnone, List.find?_cons_of_pos _ (by simp),
        hcg]
    · have hgo : convGetById s3 cid = convGetById s cid := by
        show findConv s3.conversations cid = findConv s.conversations cid
        rw [hconvs3, hs1eq]
      rw [hgo, hfound]
  split at hrun
  next hnone =>
    rw [hre] at hnone
    exact absurd hnone (by simp)
  next conversation hsome =>
  split at hrun
  · exact absurd hrun (by simp)
  next hupd =>
  simp only [Prod.mk.injEq, Except.ok.injEq] at hrun
  obtain ⟨hs', hout⟩ := hrun
  subst hs'
  subst hout
  refine ⟨userMessage, assistantMessage, ?_, mu_type, ma_type, mu_content,
    mu_conv, ma_conv, hparent, rfl, ?_⟩
  · show (updateMessageCount s3 _ _).messages = _
    simp only [updateMessageCount]
    rw [mc2msgs, mc1msgs, hs1msgs, List.append_assoc]
    rfl
  · have hconvval : conversation =
        match convGetById s cid with
        | some c => c
        | none => ⟨env.convUuid, input.userId.getD "", "New Conversation",
            0, false⟩ := by
      have := hsome.symm.trans hre
      exact Option.some.injEq _ _ ▸ (by simpa using this)
    refine ⟨{ conversation with
        messageCount := conversation.messageCount + 2 },
      convGetById_update hsome _, ?_⟩
    show conversation.messageCount + 2 = _
    rcases hc : convGetById s cid with _ | c
    · rw [hc] at hconvval
      simp only [hconvval]
    · rw [hc] at hconvval
      simp only [hconvval]

/-- Concrete instantiation of `C1_turn_atomicity`: one successful turn on
an existing conversation with message count 5. -/
theorem C1_turn_atomicity_witness :
    ∃ u a : Message,
      (⟨[⟨"cc", "uu", "T", 7, false⟩],
        [⟨7, "w-mu", "cc", none, .user, "ping", "completed", 3⟩,
         ⟨8, "w-ma", "cc", some 7, .assistant, "resp", "completed", 4⟩],
        9⟩ : DBState).messages =
        (⟨[⟨"cc", "uu", "T", 5, false⟩], [], 7⟩ : DBState).messages ++
          [u, a] ∧
      u.type = .user ∧ a.type = .assistant ∧
      u.content = (⟨some "cc", none, "ping"⟩ : SendMessageInput).message ∧
      u.conversationUuid =
        (⟨"resp", "cc", "w-ma"⟩ : SendMessageOutput).conversationId ∧
      a.conversationUuid =
        (⟨"resp", "cc", "w-ma"⟩ : SendMessageOutput).conversationId ∧
      a.parentMessageId = some u.id ∧
      a.uuid = (⟨"resp", "cc", "w-ma"⟩ : SendMessageOutput).messageId ∧
      ∃ c', convGetById
          ⟨[⟨"cc", "uu", "T", 7, false⟩],
            [⟨7, "w-mu", "cc", none, .user, "ping", "completed", 3⟩,
             ⟨8, "w-ma", "cc", some 7, .assistant, "resp", "completed", 4⟩],
            9⟩
          (⟨"resp", "cc", "w-ma"⟩ : SendMessageOutput).conversationId =
          some c' ∧
        c'.messageCount =
          (match convGetById ⟨[⟨"cc", "uu", "T", 5, false⟩], [], 7⟩
              (⟨"resp", "cc", "w-ma"⟩ :
                SendMessageOutput).conversationId with
           | some c => c.messageCount
           | none => 0) + 2 :=
  C1_turn_atomicity
    ⟨none, "cY", none, "w-mu", none, 3, [], .ok "p", .ok "resp", [],
      none, "w-ma", none, 4, none⟩
    ⟨[⟨"cc", "uu", "T", 5, false⟩], [], 7⟩
    ⟨[⟨"cc", "uu", "T", 7, false⟩],
      [⟨7, "w-mu", "cc", none, .user, "ping", "completed", 3⟩,
       ⟨8, "w-ma", "cc", some 7, .assistant, "resp", "completed", 4⟩],
      9⟩
    ⟨some "cc", none, "ping"⟩
    ⟨"resp", "cc", "w-ma"⟩
    rfl (by decide) (by decide)

/-- C2 (divergence, evaluated): with 12 stored messages — the 12th being
the just-inserted user message — `listByConversation … 10` (ascending
`created_at`, `limit 10`) returns the ten *oldest* messages, so the
just-inserted message is not even in the window, and
`historyFromMessages` (the `slice(0, -1)` + map of lines 176–179) yields
the nine oldest messages, which differ from the nine most recent messages
preceding the new one that the claim requires. -/
theorem C2_history_window_divergence :
    listByConversation
      ⟨[⟨"c", "u", "T", 10, false⟩],
       [⟨1, "m1", "c", none, .user, "q1", "completed", 1⟩,
        ⟨2, "m2", "c", none, .assistant, "q2", "completed", 2⟩,
        ⟨3, "m3", "c", none, .user, "q3", "completed", 3⟩,
        ⟨4, "m4", "c", none, .assistant, "q4", "completed", 4⟩,
        ⟨5, "m5", "c", none, .user, "q5", "completed", 5⟩,
        ⟨6, "m6", "c", none, .assistant, "q6", "completed", 6⟩,
        ⟨7, "m7", "c", none, .user, "q7", "completed", 7⟩,
        ⟨8, "m8", "c", none, .assistant, "q8", "completed", 8⟩,
        ⟨9, "m9", "c", none, .user, "q9", "completed", 9⟩,
        ⟨10, "m10", "c", none, .assistant, "q10", "completed", 10⟩,
        ⟨11, "m11", "c", none, .user, "q11", "completed", 11⟩,
        ⟨12, "m12", "c", none, .user, "q12", "completed", 12⟩], 13⟩
      "c" 10 =
      .ok [⟨1, "m1", "c", none, .user, "q1", "completed", 1⟩,
        ⟨2, "m2", "c", none, .assistant, "q2", "completed", 2⟩,
        ⟨3, "m3", "c", none, .user, "q3", "completed", 3⟩,
        ⟨4, "m4", "c", none, .assistant, "q4", "completed", 4⟩,
        ⟨5, "m5", "c", none, .user, "q5", "completed", 5⟩,
        ⟨6, "m6", "c", none, .assistant, "q6", "completed", 6⟩,
        ⟨7, "m7", "c", none, .user, "q7", "completed", 7⟩,
        ⟨8, "m8", "c", none, .assistant, "q8", "completed", 8⟩,
        ⟨9, "m9", "c", none, .user, "q9", "completed", 9⟩,
        ⟨10, "m10", "c", none, .assistant, "q10", "completed", 10⟩] ∧
    historyFromMessages
      [⟨1, "m1", "c", none, .user, "q1", "completed", 1⟩,
       ⟨2, "m2", "c", none, .assistant, "q2", "completed", 2⟩,
       ⟨3, "m3", "c", none, .user, "q3", "completed", 3⟩,
       ⟨4, "m4", "c", none, .assistant, "q4", "completed", 4⟩,
       ⟨5, "m5", "c", none, .user, "q5", "completed", 5⟩,
       ⟨6, "m6", "c", none, .assistant, "q6", "completed", 6⟩,
       ⟨7, "m7", "c", none, .user, "q7", "completed", 7⟩,
       ⟨8, "m8", "c", none, .assistant, "q8", "completed", 8⟩,
       ⟨9, "m9", "c", none, .user, "q9", "completed", 9⟩,
       ⟨10, "m10", "c", none, .assistant, "q10", "completed", 10⟩] =
      [(MsgType.user, "q1"), (.assistant, "q2"), (.user, "q3"),
       (.assistant, "q4"), (.user, "q5"), (.assistant, "q6"),
       (.user, "q7"), (.assistant, "q8"), (.user, "q9")] ∧
    ([(MsgType.user, "q1"), (.assistant, "q2"), (.user, "q3"),
      (.assistant, "q4"), (.user, "q5"), (.assistant, "q6"),
      (.user, "q7"), (.assistant, "q8"), (.user, "q9")] :
        List (MsgType × String)) ≠
      [(MsgType.user, "q3"), (.assistant, "q4"), (.user, "q5"),
       (.assistant, "q6"), (.user, "q7"), (.assistant, "q8"),
       (.user, "q9"), (.assistant, "q10"), (.user, "q11")] :=
  ⟨rfl, rfl, by decide⟩

/-- C9 (amended): a `streamMessage` sequence consumed to completion (init
succeeded, so the iteration did not reject) contains exactly one terminal
event, which is its last element — every `delta` (and the `start`) precedes
it — and when the terminal is `error` *and* the count-update step was not
the failing one, no assistant message was persisted. (An error thrown by
the post-persistence count update still yields an `error` terminal but
leaves the assistant message persisted — see the counterexample.) -/
theorem C9_stream_terminal_exclusivity (env : TurnEnv) (s : DBState)
    (input : SendMessageInput) (hinit : env.initErr = none) :
    ∃ pre t s', streamMessage env s input = .ok (pre ++ [t], s') ∧
      isTerminal t = true ∧
      (∀ e ∈ pre, isTerminal e = false) ∧
      (∀ msg, t = .error msg → env.updateCountErr = none →
        ∀ m ∈ s'.messages, m ∉ s.messages → m.type ≠ .assistant) := by
  have hsm : streamMessage env s input = .ok (streamBody env s input) := by
    unfold streamMessage
    rw [hinit]
  rw [hsm]
  unfold streamBody
  split
  next hval =>
    exact ⟨[], .error invalidInputMsg, s, rfl, rfl, by simp,
      fun msg _ _ m hm hnm => absurd hm hnm⟩
  next hval =>
  split
  next e hres =>
    exact ⟨[], .error e, s, rfl, rfl, by simp,
      fun msg _ _ m hm hnm => absurd hm hnm⟩
  next s1 cid hres =>
  have hs1msgs : s1.messages = s.messages := by
    rcases resolveConversation_ok hres with ⟨_, _, _, _, hm, _⟩ |
      ⟨_, hs1, _, _⟩
    · exact hm
    · rw [hs1]
  split
  next e huser =>
    refine ⟨[.start cid], .error e, s1, rfl, rfl, by simp [isTerminal],
      fun msg _ _ m hm hnm => ?_⟩
    rw [hs1msgs] at hm
    exact absurd hm hnm
  next s2 userMessage huser =>
  obtain ⟨_, mc1msgs, _, _, _, mu_type, _, _, _, _, _⟩ :=
    messageCreate_ok huser
  have hs2new : ∀ m ∈ s2.messages, m ∉ s.messages →
      m.type ≠ MsgType.assistant := by
    intro m hm hnm
    rw [mc1msgs, hs1msgs] at hm
    rcases List.mem_append.mp hm with hm | hm
    · exact absurd hm hnm
    · rcases List.mem_singleton.mp hm with rfl
      rw [mu_type]
      simp
  have hpre : ∀ e ∈ StreamEvent.start cid ::
      env.chunks.map StreamEvent.delta, isTerminal e = false := by
    intro e he
    rcases List.mem_cons.mp he with rfl | he
    · rfl
    · rcases List.mem_map.mp he with ⟨c, _, rfl⟩
      rfl
  split
  next e hlist =>
    exact ⟨[.start cid], .error e, s2, rfl, rfl, by simp [isTerminal],
      fun msg _ _ => hs2new⟩
  next msgs hlist =>
  split
  next e hpers =>
    exact ⟨[.start cid], .error e, s2, rfl, rfl, by simp [isTerminal],
      fun msg _ _ => hs2new⟩
  next sp hpers =>
  split
  next e hstream =>
    exact ⟨.start cid :: env.chunks.map StreamEvent.delta, .error e, s2,
      rfl, rfl, hpre, fun msg _ _ => hs2new⟩
  next hstream =>
  split
  next e hassist =>
    exact ⟨.start cid :: env.chunks.map StreamEvent.delta, .error e, s2,
      rfl, rfl, hpre, fun msg _ _ => hs2new⟩
  next s3 assistantMessage hassist =>
  split
  next hconvnone =>
    exact ⟨.start cid :: env.chunks.map StreamEvent.delta,
      .final (String.join env.chunks) assistantMessage.uuid cid, s3,
      rfl, rfl, hpre, fun msg hmsg => absurd hmsg (by simp)⟩
  next conversation hconv =>
  split
  next e hupd =>
    refine ⟨.start cid :: env.chunks.map StreamEvent.delta, .error e, s3,
      rfl, rfl, hpre, fun msg _ hnone => ?_⟩
    rw [hupd] at hnone
    exact absurd hnone (by simp)
  next hupd =>
    exact ⟨.start cid :: env.chunks.map StreamEvent.delta,
      .final (String.join env.chunks) assistantMessage.uuid cid,
      updateMessageCount s3 cid (conversation.messageCount + 2),
      rfl, rfl, hpre, fun msg hmsg => absurd hmsg (by simp)⟩

/-- C9 counterexample: when the post-persistence message-count update
fails, the terminal event is `error`, yet the assistant message *is*
persisted in the final state — contradicting the claim's "no assistant
message is persisted when the terminal event is error". -/
theorem C9_error_after_persist_counterexample :
    streamMessage
      ⟨none, "cZ", none, "s-mu", none, 11, [], .ok "p", .ok "unused",
        ["hel", "lo"], none, "s-ma", none, 12, some "boom"⟩
      ⟨[⟨"sc", "su", "T", 4, false⟩], [], 20⟩
      ⟨some "sc", none, "hey"⟩ =
      .ok ([.start "sc", .delta "hel", .delta "lo", .error "boom"],
        ⟨[⟨"sc", "su", "T", 4, false⟩],
         [⟨20, "s-mu", "sc", none, .user, "hey", "completed", 11⟩,
          ⟨21, "s-ma", "sc", some 20, .assistant, "hello", "completed",
            12⟩],
         22⟩) ∧
    (⟨21, "s-ma", "sc", some 20, .assistant, "hello", "completed", 12⟩ :
        Message) ∈
      [⟨20, "s-mu", "sc", none, .user, "hey", "completed", 11⟩,
       (⟨21, "s-ma", "sc", some 20, .assistant, "hello", "completed", 12⟩ :
        Message)] :=
  ⟨rfl, by decide⟩

/-- Concrete instantiation of `C9_stream_terminal_exclusivity`: a fully
successful streamed turn. -/
theorem C9_stream_terminal_exclusivity_witness :
    ∃ pre t s',
      streamMessage
        ⟨none, "cW", none, "t-mu", none, 1, [], .ok "p", .ok "x", ["ok"],
          none, "t-ma", none, 2, none⟩
        ⟨[⟨"wc", "wu", "T", 0, false⟩], [], 0⟩
        ⟨some "wc", none, "hi"⟩ = .ok (pre ++ [t], s') ∧
      isTerminal t = true ∧
      (∀ e ∈ pre, isTerminal e = false) ∧
      (∀ msg, t = .error msg →
        (⟨none, "cW", none, "t-mu", none, 1, [], .ok "p", .ok "x", ["ok"],
          none, "t-ma", none, 2, none⟩ : TurnEnv).updateCountErr = none →
        ∀ m ∈ s'.messages,
          m ∉ (⟨[⟨"wc", "wu", "T", 0, false⟩], [], 0⟩ : DBState).messages →
          m.type ≠ .assistant) :=
  C9_stream_terminal_exclusivity
    ⟨none, "cW", none, "t-mu", none, 1, [], .ok "p", .ok "x", ["ok"],
      none, "t-ma", none, 2, none⟩
    ⟨[⟨"wc", "wu", "T", 0, false⟩], [], 0⟩
    ⟨some "wc", none, "hi"⟩ rfl

end AssistantClient
